import Mathlib

/-!
Verification of the CDL journal transfer engine
(`cdl_journal_transfer/transfer/transfer_handler.py` and
`cdl_journal_transfer/transfer/http_connection.py`) against its
natural-language specification.

JSON values decoded by `json.loads` are modelled by the inductive type
`Json`; Python dictionaries are association lists, `dict.get` is `dictGet`,
item assignment is `dictSet`, and Python exceptions are modelled by
`Except String` results carrying the exception class name.
-/

/-- A decoded JSON value (the result of Python's `json.loads`). -/
inductive Json where
  | null
  | bool (b : Bool)
  | num (n : Int)
  | str (s : String)
  | arr (elems : List Json)
  | obj (fields : List (String × Json))

/-- Python truthiness of a decoded JSON value (`if value:`). -/
def pyTruthy : Json → Bool
  | .null => false
  | .bool b => b
  | .num n => n != 0
  | .str s => s ≠ ""
  | .arr l => !l.isEmpty
  | .obj f => !f.isEmpty

/-- `dict.get(key)`: first binding of `key`, if any. -/
def dictGet : List (String × Json) → String → Option Json
  | [], _ => none
  | p :: rest, key => if p.1 = key then some p.2 else dictGet rest key

/-- `dict[key] = v`: replace the binding of `key` in place, or append one. -/
def dictSet (fields : List (String × Json)) (key : String) (v : Json) :
    List (String × Json) :=
  if fields.any (fun p => p.1 = key)
  then fields.map (fun p => if p.1 = key then (key, v) else p)
  else fields ++ [(key, v)]

/-- `value[key]` on a decoded JSON value: `KeyError` when the key is absent
from a dictionary, `TypeError` when the value is not a dictionary. -/
def pyGetItem (j : Json) (key : String) : Except String Json :=
  match j with
  | .obj f =>
    match dictGet f key with
    | some v => .ok v
    | none => .error "KeyError"
  | _ => .error "TypeError"

/-- `len(value)` on a decoded JSON value. -/
def pyLen : Json → Except String Nat
  | .arr l => .ok l.length
  | .obj f => .ok f.length
  | .str s => .ok s.length
  | _ => .error "TypeError"

/-- Iterating a decoded JSON value with `for`: a list yields its elements, a
dictionary its keys, a string its characters; other values raise `TypeError`. -/
def pyIterList : Json → Except String (List Json)
  | .arr l => .ok l
  | .obj f => .ok (f.map (fun p => Json.str p.1))
  | .str s => .ok (s.toList.map (fun c => Json.str c.toString))
  | _ => .error "TypeError"

/-- Python string formatting of an optional string (`f"...{x}..."` where `x`
may be `None`): `None` renders as `"None"`. -/
def pyStrOfOpt : Option String → String
  | some s => s
  | none => "None"

mutual

/-- `TransferHandler.__assign_uuids`: recurse through lists; on a dictionary
carrying a truthy `source_record_key`, store `uuid.uuid5(self.uuid, key)`
under `"uuid"`.  `uuid5` abstracts Python's `uuid.uuid5` (namespace, name);
`ns` is the run-scoped namespace `self.uuid`.  Calling `.get` on a non-list,
non-dictionary value raises `AttributeError`; `uuid.uuid5` on a non-string
name raises `TypeError`. -/
def assignUuids (uuid5 : String → String → String) (ns : String) :
    Json → Except String Json
  | .arr l =>
    match assignUuidsList uuid5 ns l with
    | .error e => .error e
    | .ok l' => .ok (.arr l')
  | .obj fields =>
    match dictGet fields "source_record_key" with
    | some v =>
      if pyTruthy v then
        match v with
        | .str key => .ok (.obj (dictSet fields "uuid" (.str (uuid5 ns key))))
        | _ => .error "TypeError"
      else .ok (.obj fields)
    | none => .ok (.obj fields)
  | _ => .error "AttributeError"

/-- The `for entry in json: self.__assign_uuids(entry)` loop of
`__assign_uuids`, element by element. -/
def assignUuidsList (uuid5 : String → String → String) (ns : String) :
    List Json → Except String (List Json)
  | [] => .ok []
  | x :: xs =>
    match assignUuids uuid5 ns x with
    | .error e => .error e
    | .ok x' =>
      match assignUuidsList uuid5 ns xs with
      | .error e => .error e
      | .ok xs' => .ok (x' :: xs')

end

mutual

/-- A JSON value is safe for `__assign_uuids` when, descending through
(arbitrarily nested) list elements only, every value reached is a list or a
dictionary. -/
def listSafe : Json → Bool
  | .arr l => listSafeList l
  | .obj _ => true
  | _ => false

/-- `listSafe` for every element of a list. -/
def listSafeList : List Json → Bool
  | [] => true
  | x :: xs => listSafe x && listSafeList xs

end

mutual

/-- The dictionaries of a JSON value reachable through (arbitrarily nested)
list elements only — exactly the positions `__assign_uuids` visits. -/
def objsThroughLists : Json → List (List (String × Json))
  | .arr l => objsThroughListsL l
  | .obj f => [f]
  | _ => []

/-- `objsThroughLists` over the elements of a list. -/
def objsThroughListsL : List Json → List (List (String × Json))
  | [] => []
  | x :: xs => objsThroughLists x ++ objsThroughListsL xs

end

theorem dictGet_map_set (f : List (String × Json)) (k : String) (v : Json) :
    dictGet (f.map (fun p => if p.1 = k then (k, v) else p)) k
      = if f.any (fun p => p.1 = k) then some v else none := by
  induction f with
  | nil => rfl
  | cons p rest ih =>
    simp only [List.map_cons, List.any_cons]
    by_cases hp : p.1 = k
    · rw [if_pos hp]
      simp [dictGet, hp]
    · rw [if_neg hp]
      simp only [dictGet, if_neg hp]
      rw [ih]
      simp only [decide_eq_false hp, Bool.false_or]

theorem dictGet_map_set_ne (f : List (String × Json)) (k k' : String) (v : Json)
    (h : k' ≠ k) :
    dictGet (f.map (fun p => if p.1 = k then (k, v) else p)) k' = dictGet f k' := by
  induction f with
  | nil => rfl
  | cons p rest ih =>
    simp only [List.map_cons]
    by_cases hp : p.1 = k
    · rw [if_pos hp]
      simp [dictGet, hp, Ne.symm h, ih]
    · rw [if_neg hp]
      simp [dictGet, ih]

theorem dictGet_eq_none_of_any_false (f : List (String × Json)) (k : String)
    (h : (f.any fun p => p.1 = k) = false) : dictGet f k = none := by
  induction f with
  | nil => rfl
  | cons p rest ih =>
    simp only [List.any_cons, Bool.or_eq_false_iff, decide_eq_false_iff_not] at h
    simp [dictGet, h.1, ih h.2]

theorem dictGet_append_right (f : List (String × Json)) (k : String)
    (hnone : dictGet f k = none) (rest : List (String × Json)) :
    dictGet (f ++ rest) k = dictGet rest k := by
  induction f with
  | nil => rfl
  | cons p fs ih =>
    by_cases hp : p.1 = k
    · simp [dictGet, hp] at hnone
    · simp only [dictGet, if_neg hp] at hnone
      simpa [dictGet, hp] using ih hnone

theorem dictGet_dictSet_self (f : List (String × Json)) (k : String) (v : Json) :
    dictGet (dictSet f k v) k = some v := by
  unfold dictSet
  by_cases hany : (f.any fun p => p.1 = k) = true
  · rw [if_pos hany, dictGet_map_set, if_pos hany]
  · rw [if_neg hany,
      dictGet_append_right f k
        (dictGet_eq_none_of_any_false f k (Bool.eq_false_iff.mpr hany))]
    simp [dictGet]

theorem dictGet_append_single_ne (f : List (String × Json)) (k k' : String)
    (v : Json) (h : k' ≠ k) : dictGet (f ++ [(k, v)]) k' = dictGet f k' := by
  induction f with
  | nil => simp [dictGet, Ne.symm h]
  | cons p rest ih =>
    by_cases hp : p.1 = k'
    · simp [dictGet, hp]
    · simp [dictGet, hp, ih]

theorem dictGet_dictSet_ne (f : List (String × Json)) (k k' : String) (v : Json)
    (h : k' ≠ k) : dictGet (dictSet f k v) k' = dictGet f k' := by
  unfold dictSet
  by_cases hany : (f.any fun p => p.1 = k) = true
  · rw [if_pos hany, dictGet_map_set_ne f k k' v h]
  · rw [if_neg hany, dictGet_append_single_ne f k k' v h]

/-- `HTTPConnection.get` response decoding: `json.loads(response.text or "[]")`.
The external `json.loads` is abstracted as `loads` (it may fail on malformed
text); an empty body is replaced by the literal text `"[]"` before decoding. -/
def http_get_decode (loads : String → Except String Json)
    (response_text : String) : Except String Json :=
  loads (if response_text = "" then "[]" else response_text)

/-- `HTTPConnection.put`, element loop: one `requests.post` per element of a
list, sequentially, stopping when a post raises.  The result is the effect
trace `(attempted, applied, error)`: the records submitted, the records whose
post succeeded, and the first exception if any.  Per-item responses are
discarded by the source (`put` returns nothing). -/
def http_put_list (post : Json → Except String Unit) :
    List Json → List Json × List Json × Option String
  | [] => ([], [], none)
  | r :: rest =>
    match post r with
    | .error e => ([r], [], some e)
    | .ok _ =>
      match http_put_list post rest with
      | (att, app, err) => (r :: att, r :: app, err)

/-- `HTTPConnection.put`: a list is submitted element by element; any other
value is submitted as a single post. -/
def http_put (post : Json → Except String Unit) (data : Json) :
    List Json × List Json × Option String :=
  match data with
  | .arr l => http_put_list post l
  | j =>
    match post j with
    | .error e => ([j], [], some e)
    | .ok _ => ([j], [j], none)

/-- `TransferHandler.__source_pk`: `None` when `source_record_key` is absent
or falsy, otherwise the last `":"`-separated segment.  Calling `.get` on a
non-dictionary, or `.split` on a truthy non-string value, raises
`AttributeError`. -/
def source_pk (object_dict : Json) : Except String (Option String) :=
  match object_dict with
  | .obj f =>
    match dictGet f "source_record_key" with
    | none => .ok none
    | some v =>
      if pyTruthy v then
        match v with
        | .str s => .ok (some ((s.splitOn ":").getLastD ""))
        | _ => .error "AttributeError"
      else .ok none
  | _ => .error "AttributeError"

/-- A concrete stand-in for `uuid.uuid5` used in closed evaluations. -/
def demoUuid5 (ns key : String) : String := ns ++ ":" ++ key

mutual

theorem assignUuids_ok_listSafe (uuid5 : String → String → String) (ns : String) :
    (j j' : Json) → assignUuids uuid5 ns j = .ok j' → listSafe j = true
  | .arr l, j', h => by
    simp only [listSafe]
    cases hc : assignUuidsList uuid5 ns l with
    | error e => simp [assignUuids, hc] at h
    | ok l' => exact assignUuidsList_ok_listSafe uuid5 ns l l' hc
  | .obj f, _, _ => rfl
  | .null, j', h => by simp [assignUuids] at h
  | .bool b, j', h => by simp [assignUuids] at h
  | .num n, j', h => by simp [assignUuids] at h
  | .str s, j', h => by simp [assignUuids] at h

theorem assignUuidsList_ok_listSafe (uuid5 : String → String → String)
    (ns : String) :
    (l : List Json) → (l' : List Json) → assignUuidsList uuid5 ns l = .ok l' →
      listSafeList l = true
  | [], _, _ => rfl
  | x :: xs, l', h => by
    cases hx : assignUuids uuid5 ns x with
    | error e => simp [assignUuidsList, hx] at h
    | ok x' =>
      cases hxs : assignUuidsList uuid5 ns xs with
      | error e => simp [assignUuidsList, hx, hxs] at h
      | ok xs' =>
        simp only [listSafeList, Bool.and_eq_true]
        exact ⟨assignUuids_ok_listSafe uuid5 ns x x' hx,
               assignUuidsList_ok_listSafe uuid5 ns xs xs' hxs⟩

end

/-- A JSON value that is neither a list nor a dictionary. -/
def notListOrObj : Json → Bool
  | .arr _ => false
  | .obj _ => false
  | _ => true

/-- Claim C1: for a fixed run-scoped namespace, identifier assignment on any
record carrying a non-empty `source_record_key` stores `uuid5(ns, key)` as its
`uuid`; two invocations with the same namespace and key yield equal
identifiers. -/
theorem assign_uuid_stores_uuid5_deterministically
    (uuid5 : String → String → String) (ns : String)
    (f1 f2 : List (String × Json)) (key : String) (hk : key ≠ "")
    (h1 : dictGet f1 "source_record_key" = some (.str key))
    (h2 : dictGet f2 "source_record_key" = some (.str key)) :
    ∃ g1 g2,
      assignUuids uuid5 ns (.obj f1) = .ok (.obj g1) ∧
      assignUuids uuid5 ns (.obj f2) = .ok (.obj g2) ∧
      dictGet g1 "uuid" = some (.str (uuid5 ns key)) ∧
      dictGet g2 "uuid" = dictGet g1 "uuid" := by
  refine ⟨dictSet f1 "uuid" (.str (uuid5 ns key)),
          dictSet f2 "uuid" (.str (uuid5 ns key)), ?_, ?_, ?_, ?_⟩
  · simp [assignUuids, h1, pyTruthy, hk]
  · simp [assignUuids, h2, pyTruthy, hk]
  · exact dictGet_dictSet_self f1 "uuid" (.str (uuid5 ns key))
  · rw [dictGet_dictSet_self, dictGet_dictSet_self]

/-- Claim C1 witness: a concrete record with `source_record_key = "journal:42"`
gets `uuid5(ns, "journal:42")` stored, identically across two records. -/
theorem assign_uuid_stores_uuid5_deterministically_witness :
    ∃ g1 g2,
      assignUuids demoUuid5 "N" (.obj [("source_record_key", .str "journal:42")])
        = .ok (.obj g1) ∧
      assignUuids demoUuid5 "N"
          (.obj [("title", .str "T"), ("source_record_key", .str "journal:42")])
        = .ok (.obj g2) ∧
      dictGet g1 "uuid" = some (.str (demoUuid5 "N" "journal:42")) ∧
      dictGet g2 "uuid" = dictGet g1 "uuid" :=
  assign_uuid_stores_uuid5_deterministically demoUuid5 "N"
    [("source_record_key", .str "journal:42")]
    [("title", .str "T"), ("source_record_key", .str "journal:42")]
    "journal:42" (by decide) rfl rfl

/-- Claim C8: a record that does not carry `source_record_key` is passed
through completely unmodified by identifier assignment. -/
theorem assign_uuids_no_key_unmodified (uuid5 : String → String → String)
    (ns : String) (fields : List (String × Json))
    (h : dictGet fields "source_record_key" = none) :
    assignUuids uuid5 ns (.obj fields) = .ok (.obj fields) := by
  simp [assignUuids, h]

/-- Claim C8 witness: a concrete keyless record is returned unchanged. -/
theorem assign_uuids_no_key_unmodified_witness :
    assignUuids demoUuid5 "N" (.obj [("title", .str "T")])
      = .ok (.obj [("title", .str "T")]) :=
  assign_uuids_no_key_unmodified demoUuid5 "N" [("title", .str "T")] rfl

/-- Claim C10: identifier assignment on a value that is neither a list nor a
dictionary raises `AttributeError`, and it terminates normally only when every
value reachable through nested lists is a list or a dictionary. -/
theorem assign_uuids_scalar_raises :
    (∀ (uuid5 : String → String → String) (ns : String) (j : Json),
        notListOrObj j = true → assignUuids uuid5 ns j = .error "AttributeError")
    ∧ (∀ (uuid5 : String → String → String) (ns : String) (j j' : Json),
        assignUuids uuid5 ns j = .ok j' → listSafe j = true) := by
  constructor
  · intro uuid5 ns j hj
    cases j with
    | null => rfl
    | bool b => rfl
    | num n => rfl
    | str s => rfl
    | arr l => simp [notListOrObj] at hj
    | obj f => simp [notListOrObj] at hj
  · intro uuid5 ns j j' h
    exact assignUuids_ok_listSafe uuid5 ns j j' h

/-- Claim C10 witness: a bare number raises `AttributeError`, and a normally
terminating run implies list-safety at a concrete input. -/
theorem assign_uuids_scalar_raises_witness :
    assignUuids demoUuid5 "N" (.num 3) = .error "AttributeError"
    ∧ listSafe (.arr [.obj []]) = true :=
  ⟨assign_uuids_scalar_raises.1 demoUuid5 "N" (.num 3) rfl,
   assign_uuids_scalar_raises.2 demoUuid5 "N" (.arr [.obj []]) (.arr [.obj []]) rfl⟩

/-- Claim C2 counterexample: identifier assignment does not descend into a
record's fields.  The nested record under `"child"` carries
`source_record_key = "b"` but receives no `uuid`: the output keeps it
unchanged, refuting the claim that every record anywhere in the structure
receives an assigned uuid. -/
theorem assign_uuids_nested_field_counterexample :
    assignUuids demoUuid5 "N"
        (.obj [("source_record_key", .str "a"),
               ("child", .obj [("source_record_key", .str "b")])])
      = .ok (.obj [("source_record_key", .str "a"),
                   ("child", .obj [("source_record_key", .str "b")]),
                   ("uuid", .str "N:a")])
    ∧ dictGet [("source_record_key", Json.str "b")] "uuid" = none := by
  constructor
  · rfl
  · rfl

mutual

theorem assignUuids_ok_objs (uuid5 : String → String → String) (ns : String) :
    (j j' : Json) → assignUuids uuid5 ns j = .ok j' →
    ∀ f ∈ objsThroughLists j', ∀ key,
      dictGet f "source_record_key" = some (.str key) → key ≠ "" →
      dictGet f "uuid" = some (.str (uuid5 ns key))
  | .arr l, j', h => by
    cases hc : assignUuidsList uuid5 ns l with
    | error e => simp [assignUuids, hc] at h
    | ok l' =>
      simp only [assignUuids, hc] at h
      cases h
      simpa only [objsThroughLists] using
        assignUuidsList_ok_objs uuid5 ns l l' hc
  | .obj fields, j', h => by
    cases hg : dictGet fields "source_record_key" with
    | none =>
      simp only [assignUuids, hg] at h
      cases h
      intro f hf key hkey _
      simp only [objsThroughLists, List.mem_singleton] at hf
      subst hf
      rw [hg] at hkey
      cases hkey
    | some v =>
      by_cases ht : pyTruthy v = true
      · cases v with
        | str key0 =>
          simp only [assignUuids, hg, ht, if_pos] at h
          cases h
          intro f hf key hkey hkne
          simp only [objsThroughLists, List.mem_singleton] at hf
          subst hf
          rw [dictGet_dictSet_ne fields "uuid" "source_record_key" _
              (by decide)] at hkey
          rw [hg] at hkey
          cases hkey
          exact dictGet_dictSet_self fields "uuid" (.str (uuid5 ns key0))
        | null => simp [pyTruthy] at ht
        | bool b => simp [assignUuids, hg, ht] at h
        | num n => simp [assignUuids, hg, ht] at h
        | arr l => simp [assignUuids, hg, ht] at h
        | obj g => simp [assignUuids, hg, ht] at h
      · simp only [assignUuids, hg, ht, if_neg, Bool.not_eq_true] at h
        cases h
        intro f hf key hkey hkne
        simp only [objsThroughLists, List.mem_singleton] at hf
        subst hf
        rw [hg] at hkey
        cases hkey
        simp [pyTruthy, hkne] at ht
  | .null, j', h => by simp [assignUuids] at h
  | .bool b, j', h => by simp [assignUuids] at h
  | .num n, j', h => by simp [assignUuids] at h
  | .str s, j', h => by simp [assignUuids] at h

theorem assignUuidsList_ok_objs (uuid5 : String → String → String)
    (ns : String) :
    (l l' : List Json) → assignUuidsList uuid5 ns l = .ok l' →
    ∀ f ∈ objsThroughListsL l', ∀ key,
      dictGet f "source_record_key" = some (.str key) → key ≠ "" →
      dictGet f "uuid" = some (.str (uuid5 ns key))
  | [], l', h => by
    simp only [assignUuidsList] at h
    cases h
    intro f hf
    simp [objsThroughListsL] at hf
  | x :: xs, l', h => by
    cases hx : assignUuids uuid5 ns x with
    | error e => simp [assignUuidsList, hx] at h
    | ok x' =>
      cases hxs : assignUuidsList uuid5 ns xs with
      | error e => simp [assignUuidsList, hx, hxs] at h
      | ok xs' =>
        simp only [assignUuidsList, hx, hxs] at h
        cases h
        intro f hf key hkey hkne
        simp only [objsThroughListsL, List.mem_append] at hf
        cases hf with
        | inl hf => exact assignUuids_ok_objs uuid5 ns x x' hx f hf key hkey hkne
        | inr hf =>
          exact assignUuidsList_ok_objs uuid5 ns xs xs' hxs f hf key hkey hkne

end

theorem assignUuids_obj_only_uuid_changes (uuid5 : String → String → String)
    (ns : String) (fields : List (String × Json)) (j' : Json)
    (h : assignUuids uuid5 ns (.obj fields) = .ok j') :
    ∃ g, j' = .obj g ∧ ∀ k, k ≠ "uuid" → dictGet g k = dictGet fields k := by
  cases hg : dictGet fields "source_record_key" with
  | none =>
    simp only [assignUuids, hg] at h
    cases h
    exact ⟨fields, rfl, fun k _ => rfl⟩
  | some v =>
    by_cases ht : pyTruthy v = true
    · cases v with
      | str key0 =>
        simp only [assignUuids, hg, ht, if_pos] at h
        cases h
        exact ⟨dictSet fields "uuid" (.str (uuid5 ns key0)), rfl,
          fun k hk => dictGet_dictSet_ne fields "uuid" k _ hk⟩
      | null => simp [pyTruthy] at ht
      | bool b => simp [assignUuids, hg, ht] at h
      | num n => simp [assignUuids, hg, ht] at h
      | arr l => simp [assignUuids, hg, ht] at h
      | obj g => simp [assignUuids, hg, ht] at h
    · simp only [assignUuids, hg, ht, if_neg, Bool.not_eq_true] at h
      cases h
      exact ⟨fields, rfl, fun k _ => rfl⟩

/-- Claim C2 (amended): identifier assignment visits exactly the records
reachable through (arbitrarily nested) list elements — every such record in
a normally produced output that carries a non-empty string
`source_record_key` holds `uuid5(ns, key)` under `"uuid"` — but it does not
descend into a record's field values: on a record, every field other than
`"uuid"` is passed through unchanged. -/
theorem assign_uuids_visits_list_reachable_records :
    (∀ (uuid5 : String → String → String) (ns : String) (j j' : Json),
        assignUuids uuid5 ns j = .ok j' →
        ∀ f ∈ objsThroughLists j', ∀ key,
          dictGet f "source_record_key" = some (.str key) → key ≠ "" →
          dictGet f "uuid" = some (.str (uuid5 ns key)))
    ∧ (∀ (uuid5 : String → String → String) (ns : String)
          (fields : List (String × Json)) (j' : Json),
        assignUuids uuid5 ns (.obj fields) = .ok j' →
        ∃ g, j' = .obj g ∧ ∀ k, k ≠ "uuid" → dictGet g k = dictGet fields k) :=
  ⟨fun uuid5 ns j j' h => assignUuids_ok_objs uuid5 ns j j' h,
   fun uuid5 ns fields j' h =>
     assignUuids_obj_only_uuid_changes uuid5 ns fields j' h⟩

/-- Claim C2 (amended) witness: at a concrete nested-list input, the two
list-reachable records get uuids, and a record's non-uuid fields are kept. -/
theorem assign_uuids_visits_list_reachable_records_witness :
    (∀ f ∈ objsThroughLists
        (.arr [.obj [("source_record_key", .str "a"), ("uuid", .str "N:a")],
               .arr [.obj [("source_record_key", .str "b"), ("uuid", .str "N:b")]]]),
      ∀ key, dictGet f "source_record_key" = some (.str key) → key ≠ "" →
        dictGet f "uuid" = some (.str (demoUuid5 "N" key)))
    ∧ (∃ g, (Json.obj [("source_record_key", Json.str "a"),
                       ("title", Json.str "T"),
                       ("uuid", Json.str "N:a")]) = .obj g
        ∧ ∀ k, k ≠ "uuid" →
            dictGet g k = dictGet [("source_record_key", Json.str "a"),
                                   ("title", Json.str "T")] k) := by
  constructor
  · exact assign_uuids_visits_list_reachable_records.1 demoUuid5 "N"
      (.arr [.obj [("source_record_key", .str "a")],
             .arr [.obj [("source_record_key", .str "b")]]])
      (.arr [.obj [("source_record_key", .str "a"), ("uuid", .str "N:a")],
             .arr [.obj [("source_record_key", .str "b"), ("uuid", .str "N:b")]]])
      rfl
  · exact assign_uuids_visits_list_reachable_records.2 demoUuid5 "N"
      [("source_record_key", Json.str "a"), ("title", Json.str "T")]
      (.obj [("source_record_key", Json.str "a"), ("title", Json.str "T"),
             ("uuid", Json.str "N:a")])
      (by rfl)

/-- Claim C6: a transport `get` whose remote response body is empty decodes
the literal `"[]"` and returns the empty-list JSON value instead of failing. -/
theorem http_get_empty_body_returns_empty_list
    (loads : String → Except String Json)
    (hloads : loads "[]" = .ok (.arr [])) :
    http_get_decode loads "" = .ok (.arr []) := by
  simp [http_get_decode, hloads]

/-- A concrete stand-in for `json.loads` that handles the `"[]"` literal. -/
def demoLoads : String → Except String Json :=
  fun s => if s = "[]" then .ok (.arr []) else .error "JSONDecodeError"

/-- Claim C6 witness: with a concrete decoder, the empty body yields `[]`. -/
theorem http_get_empty_body_returns_empty_list_witness :
    http_get_decode demoLoads "" = .ok (.arr []) :=
  http_get_empty_body_returns_empty_list demoLoads rfl

theorem http_put_list_all_ok (post : Json → Except String Unit) :
    (l : List Json) → (∀ r ∈ l, post r = .ok ()) →
      http_put_list post l = (l, l, none)
  | [], _ => rfl
  | x :: xs, h => by
    rw [http_put_list, h x (List.mem_cons_self x xs),
        http_put_list_all_ok post xs (fun r hr => h r (List.mem_cons_of_mem x hr))]

theorem http_put_list_fail (post : Json → Except String Unit) :
    (pre : List Json) → (r : Json) → (rest : List Json) → (e : String) →
    (∀ x ∈ pre, post x = .ok ()) → post r = .error e →
      http_put_list post (pre ++ r :: rest) = (pre ++ [r], pre, some e)
  | [], r, rest, e, _, hr => by simp [http_put_list, hr]
  | x :: pre, r, rest, e, h, hr => by
    rw [List.cons_append, http_put_list, h x (List.mem_cons_self x pre),
        http_put_list_fail post pre r rest e
          (fun y hy => h y (List.mem_cons_of_mem x hy)) hr]
    simp

/-- Claim C9: a transport `put` on a sequence submits one post per element,
sequentially in list order, discarding per-item results; when every post
succeeds all elements are applied, and when the post of the element after a
fully successful prefix fails, exactly that prefix is applied and the
remaining elements are never attempted. -/
theorem http_put_sequence_per_element :
    (∀ (post : Json → Except String Unit) (l : List Json),
        (∀ r ∈ l, post r = .ok ()) → http_put post (.arr l) = (l, l, none))
    ∧ (∀ (post : Json → Except String Unit) (pre : List Json) (r : Json)
          (rest : List Json) (e : String),
        (∀ x ∈ pre, post x = .ok ()) → post r = .error e →
        http_put post (.arr (pre ++ r :: rest)) = (pre ++ [r], pre, some e)) :=
  ⟨fun post l h => http_put_list_all_ok post l h,
   fun post pre r rest e h hr => http_put_list_fail post pre r rest e h hr⟩

/-- A concrete post that rejects exactly the record `{"bad": null}`. -/
def demoPost : Json → Except String Unit
  | .obj [("bad", .null)] => .error "ConnectionError"
  | _ => .ok ()

/-- Claim C9 witness: three records all succeed; with a failing second record
only the first is applied and the third is never attempted. -/
theorem http_put_sequence_per_element_witness :
    http_put demoPost (.arr [.num 1, .num 2, .num 3])
      = ([.num 1, .num 2, .num 3], [.num 1, .num 2, .num 3], none)
    ∧ http_put demoPost (.arr ([.num 1] ++ .obj [("bad", .null)] :: [.num 3]))
      = ([.num 1] ++ [.obj [("bad", .null)]], [.num 1], some "ConnectionError") := by
  constructor
  · exact http_put_sequence_per_element.1 demoPost [.num 1, .num 2, .num 3]
      (by
        intro r hr
        simp only [List.mem_cons, List.not_mem_nil, or_false] at hr
        rcases hr with rfl | rfl | rfl
        · rfl
        · rfl
        · rfl)
  · exact http_put_sequence_per_element.2 demoPost [.num 1]
      (.obj [("bad", .null)]) [.num 3] "ConnectionError"
      (by
        intro x hx
        simp only [List.mem_singleton] at hx
        rw [hx]
        rfl)
      rfl

/-- The local mirror: a set of directories and a set of files, each file
holding either no content yet (just created by `touch`) or a decoded JSON
document.  Paths are segment lists relative to the filesystem root. -/
structure FS where
  dirs : List (List String)
  files : List (List String × Option Json)

/-- Whether a file exists at `p`. -/
def fileAt (fs : FS) (p : List String) : Prop :=
  ∃ q ∈ fs.files, q.1 = p

instance (fs : FS) (p : List String) : Decidable (fileAt fs p) := by
  unfold fileAt
  infer_instance

/-- The content of the file at `p`, if one exists (`none` = empty file). -/
def fsLookup (fs : FS) (p : List String) : Option (Option Json) :=
  (fs.files.find? (fun q => q.1 = p)).map Prod.snd

/-- `Path.mkdir()`: fails if the directory exists or the parent is missing. -/
def fsMkdir (fs : FS) (p : List String) : Except String FS :=
  if p ∈ fs.dirs then .error "FileExistsError"
  else if p.dropLast ∈ fs.dirs then .ok { fs with dirs := fs.dirs ++ [p] }
  else .error "FileNotFoundError"

/-- `Path.mkdir(exist_ok=True)`. -/
def fsMkdirExistOk (fs : FS) (p : List String) : Except String FS :=
  if p ∈ fs.dirs then .ok fs
  else if p.dropLast ∈ fs.dirs then .ok { fs with dirs := fs.dirs ++ [p] }
  else .error "FileNotFoundError"

/-- `Path.touch()`: creates an empty file if none exists. -/
def fsTouch (fs : FS) (p : List String) : Except String FS :=
  if fileAt fs p then .ok fs
  else if p.dropLast ∈ fs.dirs then .ok { fs with files := fs.files ++ [(p, none)] }
  else .error "FileNotFoundError"

/-- `open(p, "w").write(serialized content)`: create or overwrite. -/
def fsWrite (fs : FS) (p : List String) (content : Json) : Except String FS :=
  if p.dropLast ∈ fs.dirs then
    if fileAt fs p
    then .ok { fs with
      files := fs.files.map (fun q => if q.1 = p then (p, some content) else q) }
    else .ok { fs with files := fs.files ++ [(p, some content)] }
  else .error "FileNotFoundError"

/-- `json.loads(open(p).read())`: missing file raises `FileNotFoundError`, an
empty file fails JSON decoding. -/
def fsReadJson (fs : FS) (p : List String) : Except String Json :=
  match fsLookup fs p with
  | none => .error "FileNotFoundError"
  | some none => .error "JSONDecodeError"
  | some (some j) => .ok j

/-- The mutable run state of a `TransferHandler` invocation: the mirror
filesystem, the log of transport `get` calls (path and URL params), and the
`progress_length` counter. -/
structure RunState where
  fs : FS
  calls : List (String × List (String × String))
  progress_length : Nat

/-- The fixed per-run context of a `TransferHandler`: the optional source
transport (`None` models a missing source server definition), the `uuid5`
hash with the run-scoped namespace `self.uuid`, the external inflector, and
`self.data_directory` (already including the `current` segment). -/
structure Handler where
  src : Option (String → List (String × String) → Except String Json)
  uuid5 : String → String → String
  ns : String
  pluralize : String → String
  singularize : String → String
  dataDir : List String

/-- `TransferHandler.STRUCTURE["journals"]`. -/
def STRUCTURE_journals : List String := ["roles", "issues", "sections"]

/-- `TransferHandler.__do_fetch`: no-op returning `None` without a source;
otherwise performs the transport `get` (logged), assigns identifiers, and
writes the response to `file` only after the whole pipeline succeeded. -/
def do_fetch (H : Handler) (st : RunState) (api_path : String)
    (params : List (String × String)) (file : List String) :
    RunState × Except String (Option Json) :=
  match H.src with
  | none => (st, .ok none)
  | some get =>
    let st1 := { st with calls := st.calls ++ [(api_path, params)] }
    match get api_path params with
    | .error e => (st1, .error e)
    | .ok resp =>
      match assignUuids H.uuid5 H.ns resp with
      | .error e => (st1, .error e)
      | .ok resp' =>
        match fsWrite st1.fs file resp' with
        | .error e => (st1, .error e)
        | .ok fs' => ({ st1 with fs := fs' }, .ok (some resp'))

/-- `TransferHandler.__build_index_file`: create the pluralized resource
directory, `touch` its `index.json`, fetch the listing into it, and add the
listing's length to `progress_length`.  The `len(response)` step raises
`TypeError` when `__do_fetch` returned `None` (no source configured). -/
def build_index_file (H : Handler) (st : RunState) (base_path : List String)
    (resource_name : String) (url : Option String)
    (fetch_params : List (String × String)) :
    RunState × Except String (List String × Json) :=
  let pname := H.pluralize resource_name
  let dir_path := base_path ++ [pname]
  match fsMkdir st.fs dir_path with
  | .error e => (st, .error e)
  | .ok fs1 =>
    let file_path := dir_path ++ ["index.json"]
    match fsTouch fs1 file_path with
    | .error e => ({ st with fs := fs1 }, .error e)
    | .ok fs2 =>
      let st1 := { st with fs := fs2 }
      let (st2, r) := do_fetch H st1 (url.getD pname) fetch_params file_path
      match r with
      | .error e => (st2, .error e)
      | .ok none => (st2, .error "TypeError")
      | .ok (some resp) =>
        match pyLen resp with
        | .error e => (st2, .error e)
        | .ok n =>
          ({ st2 with progress_length := st2.progress_length + n },
           .ok (file_path, resp))

/-- Iterate a state-transforming step over JSON elements, stopping at the
first exception (a Python `for` body that may raise). -/
def runFold (f : RunState → Json → RunState × Except String Unit) :
    RunState → List Json → RunState × Except String Unit
  | st, [] => (st, .ok ())
  | st, x :: xs =>
    match f st x with
    | (st', .ok _) => runFold f st' xs
    | (st', .error e) => (st', .error e)

/-- Iterate a state-transforming step over resource-type names, stopping at
the first exception. -/
def runFoldS (f : RunState → String → RunState × Except String Unit) :
    RunState → List String → RunState × Except String Unit
  | st, [] => (st, .ok ())
  | st, x :: xs =>
    match f st x with
    | (st', .ok _) => runFoldS f st' xs
    | (st', .error e) => (st', .error e)

/-- One iteration of the journal loop of `TransferHandler.__build_indexes`:
report progress (reading `journal["title"]`), read `journal["uuid"]`, extract
the source primary key, create the journal directory, and build one
subresource index per declared resource type. -/
def build_indexes_journal (H : Handler) (journal_index_file : List String)
    (st : RunState) (journal : Json) : RunState × Except String Unit :=
  match pyGetItem journal "title" with
  | .error e => (st, .error e)
  | .ok _ =>
    match pyGetItem journal "uuid" with
    | .error e => (st, .error e)
    | .ok juuid =>
      match source_pk journal with
      | .error e => (st, .error e)
      | .ok jpk =>
        match juuid with
        | .str u =>
          let journal_dir := journal_index_file.dropLast ++ [u]
          match fsMkdir st.fs journal_dir with
          | .error e => (st, .error e)
          | .ok fs1 =>
            runFoldS
              (fun st' sub =>
                let (st'', r) := build_index_file H st' journal_dir sub
                  (some ("journals/" ++ pyStrOfOpt jpk ++ "/" ++ sub)) []
                match r with
                | .error e => (st'', .error e)
                | .ok _ => (st'', .ok ()))
              { st with fs := fs1 } STRUCTURE_journals
        | _ => (st, .error "TypeError")

/-- `TransferHandler.__build_indexes` (Phase 1): build the top-level journals
index (forwarding the journal-path filter as the `paths` URL parameter), then
build every journal's subresource indexes.  Returns `self.journal_index`. -/
def build_indexes (H : Handler) (st : RunState) (journal_paths : List String) :
    RunState × Except String (List Json) :=
  let (st1, r) := build_index_file H st H.dataDir "journals" none
    [("paths", String.intercalate "," journal_paths)]
  match r with
  | .error e => (st1, .error e)
  | .ok (journal_index_file, idx) =>
    match pyIterList idx with
    | .error e => (st1, .error e)
    | .ok journals =>
      match runFold (build_indexes_journal H journal_index_file) st1 journals with
      | (st2, .ok _) => (st2, .ok journals)
      | (st2, .error e) => (st2, .error e)

/-- The index re-reading loop of `TransferHandler.__fetch_journal`: for each
declared resource type, decode `<journal dir>/<type>/index.json`. -/
def read_subresources (fs : FS) (current_journal_path : List String) :
    List String → Except String (List (String × Json))
  | [] => .ok []
  | name :: rest =>
    match fsReadJson fs (current_journal_path ++ [name, "index.json"]) with
    | .error e => .error e
    | .ok j =>
      match read_subresources fs current_journal_path rest with
      | .error e => .error e
      | .ok others => .ok ((name, j) :: others)

/-- `sum(map(len, subresources.values()))` of `__fetch_journal`. -/
def total_subresource_len : List (String × Json) → Except String Nat
  | [] => .ok 0
  | p :: rest =>
    match pyLen p.2 with
    | .error e => .error e
    | .ok n =>
      match total_subresource_len rest with
      | .error e => .error e
      | .ok m => .ok (n + m)

/-- `TransferHandler.__fetch_subresource`: create the entity directory named
by `subresource["uuid"]`, `touch` the singular body file, extract the entry's
source key, and fetch the record body into the file. -/
def fetch_subresource (H : Handler) (current_journal_path : List String)
    (current_journal_source_id : Option String) (st : RunState)
    (name : String) (subresource : Json) : RunState × Except String Unit :=
  match pyGetItem subresource "uuid" with
  | .error e => (st, .error e)
  | .ok suuid =>
    match suuid with
    | .str u =>
      let subresource_dir := current_journal_path ++ [name, u]
      match fsMkdir st.fs subresource_dir with
      | .error e => (st, .error e)
      | .ok fs1 =>
        let subresource_file := subresource_dir ++ [H.singularize name ++ ".json"]
        match fsTouch fs1 subresource_file with
        | .error e => ({ st with fs := fs1 }, .error e)
        | .ok fs2 =>
          match source_pk subresource with
          | .error e => ({ st with fs := fs2 }, .error e)
          | .ok spk =>
            let (st', r) := do_fetch H { st with fs := fs2 }
              ("journals/" ++ pyStrOfOpt current_journal_source_id ++ "/"
                ++ name ++ "/" ++ pyStrOfOpt spk)
              [] subresource_file
            match r with
            | .error e => (st', .error e)
            | .ok _ => (st', .ok ())
    | _ => (st, .error "TypeError")

/-- `TransferHandler.__fetch_roles`: ensure the flat users registry exists,
derive the user directory from `role_def["uuid"]`, silently return when it
already exists, otherwise create it and fetch the referenced user record. -/
def fetch_roles (H : Handler) (st : RunState) (role_def : Json) :
    RunState × Except String Unit :=
  let users_path := H.dataDir ++ ["users"]
  match fsMkdirExistOk st.fs users_path with
  | .error e => (st, .error e)
  | .ok fs0 =>
    let st0 := { st with fs := fs0 }
    match pyGetItem role_def "uuid" with
    | .error e => (st0, .error e)
    | .ok ruuid =>
      match ruuid with
      | .str u =>
        let user_dir := users_path ++ [u]
        if user_dir ∈ st0.fs.dirs ∨ fileAt st0.fs user_dir then (st0, .ok ())
        else
          match fsMkdir st0.fs user_dir with
          | .error e => (st0, .error e)
          | .ok fs1 =>
            let user_file := user_dir ++ ["user.json"]
            match fsTouch fs1 user_file with
            | .error e => ({ st0 with fs := fs1 }, .error e)
            | .ok fs2 =>
              match source_pk role_def with
              | .error e => ({ st0 with fs := fs2 }, .error e)
              | .ok user_pk =>
                let (st', r) := do_fetch H { st0 with fs := fs2 }
                  ("users/" ++ pyStrOfOpt user_pk) [] user_file
                match r with
                | .error e => (st', .error e)
                | .ok _ => (st', .ok ())
      | _ => (st0, .error "TypeError")

/-- The per-resource-type dispatch loop of `__fetch_journal`: `roles` hits the
reflectively found `_TransferHandler__fetch_roles`, every other name uses the
generic `__fetch_subresource`. -/
def fetch_journal_dispatch (H : Handler) (current_journal_path : List String)
    (current_journal_source_id : Option String)
    (subresources : List (String × Json)) (st : RunState) (name : String) :
    RunState × Except String Unit :=
  match dictGet subresources name with
  | none => (st, .error "KeyError")
  | some idx =>
    match pyIterList idx with
    | .error e => (st, .error e)
    | .ok entries =>
      if name = "roles" then
        runFold (fun st' r => fetch_roles H st' r) st entries
      else
        runFold
          (fun st' r =>
            fetch_subresource H current_journal_path current_journal_source_id
              st' name r)
          st entries

/-- `TransferHandler.__fetch_journal`: re-read the persisted subresource
indexes, compute total progress, `touch` and fetch the journal body, then
dispatch each subresource entry. -/
def fetch_journal (H : Handler) (current_journal_path : List String)
    (st : RunState) (journal : Json) : RunState × Except String Unit :=
  match pyGetItem journal "title" with
  | .error e => (st, .error e)
  | .ok _ =>
    match read_subresources st.fs current_journal_path STRUCTURE_journals with
    | .error e => (st, .error e)
    | .ok subresources =>
      match total_subresource_len subresources with
      | .error e => (st, .error e)
      | .ok _ =>
        let file := current_journal_path ++ ["journal.json"]
        match fsTouch st.fs file with
        | .error e => (st, .error e)
        | .ok fs1 =>
          let st1 := { st with fs := fs1 }
          match source_pk journal with
          | .error e => (st1, .error e)
          | .ok current_journal_source_id =>
            let (st2, r) := do_fetch H st1
              ("journals/" ++ pyStrOfOpt current_journal_source_id) [] file
            match r with
            | .error e => (st2, .error e)
            | .ok _ =>
              runFoldS
                (fetch_journal_dispatch H current_journal_path
                  current_journal_source_id subresources)
                st2 STRUCTURE_journals

/-- `TransferHandler.__fetch_all_journals` (Phase 2): for each journal index
entry, derive `self.current_journal_path` from `journal["uuid"]` and fetch
the journal's records. -/
def fetch_all_journals (H : Handler) (st : RunState)
    (journal_index : List Json) : RunState × Except String Unit :=
  runFold
    (fun st' journal =>
      match pyGetItem journal "uuid" with
      | .error e => (st', .error e)
      | .ok juuid =>
        match juuid with
        | .str u => fetch_journal H (H.dataDir ++ ["journals", u]) st' journal
        | _ => (st', .error "TypeError"))
    st journal_index

/-- `TransferHandler.fetch_data`: reset `progress_length`, run Phase 1
(`__build_indexes`) and then Phase 2 (`__fetch_all_journals`). -/
def fetch_data (H : Handler) (st : RunState) (journal_paths : List String) :
    RunState × Except String Unit :=
  let st0 := { st with progress_length := 0 }
  match build_indexes H st0 journal_paths with
  | (st1, .error e) => (st1, .error e)
  | (st1, .ok journal_index) => fetch_all_journals H st1 journal_index

/-- `TransferHandler.initialize_data_directory`: `touch` the run metadata file
and overwrite it with the run metadata document. -/
def init_data_directory (fs : FS) (dataDir : List String) (meta : Json) :
    Except String FS :=
  match fsTouch fs (dataDir ++ ["index.json"]) with
  | .error e => .error e
  | .ok fs1 => fsWrite fs1 (dataDir ++ ["index.json"]) meta

theorem fsMkdir_fresh (fs : FS) (base : List String) (a : String)
    (hnodir : base ++ [a] ∉ fs.dirs) (hparent : base ∈ fs.dirs) :
    fsMkdir fs (base ++ [a]) =
      .ok { dirs := fs.dirs ++ [base ++ [a]], files := fs.files } := by
  unfold fsMkdir
  rw [if_neg hnodir, show (base ++ [a]).dropLast = base by simp, if_pos hparent]

theorem fsTouch_fresh (fs : FS) (base : List String) (a : String)
    (hnofile : ¬ fileAt fs (base ++ [a])) (hparent : base ∈ fs.dirs) :
    fsTouch fs (base ++ [a]) =
      .ok { dirs := fs.dirs, files := fs.files ++ [(base ++ [a], none)] } := by
  unfold fsTouch
  rw [if_neg hnofile, show (base ++ [a]).dropLast = base by simp, if_pos hparent]

theorem build_index_file_no_source (H : Handler) (st : RunState)
    (base : List String) (rname : String) (url : Option String)
    (ps : List (String × String))
    (hsrc : H.src = none)
    (hnodir : base ++ [H.pluralize rname] ∉ st.fs.dirs)
    (hparent : base ∈ st.fs.dirs)
    (hnofile : ¬ fileAt st.fs ((base ++ [H.pluralize rname]) ++ ["index.json"])) :
    build_index_file H st base rname url ps =
      ({ st with fs :=
          { dirs := st.fs.dirs ++ [base ++ [H.pluralize rname]],
            files := st.fs.files
              ++ [((base ++ [H.pluralize rname]) ++ ["index.json"], none)] } },
       .error "TypeError") := by
  simp only [fileAt] at hnofile
  simp [build_index_file, do_fetch, hsrc, fsMkdir, fsTouch, fileAt, hnodir,
        hparent, hnofile]
  rw [if_neg hnofile]

/-- Claim C4 (amended): constructing the orchestrator with no source
transport and invoking the fetch sequence performs zero transport calls, but
it is not a silent no-op: the index-build phase first creates the journals
directory and an empty `journals/index.json`, and then raises `TypeError`
when it takes `len` of the absent response. -/
theorem no_source_fetch_zero_calls_but_raises (H : Handler) (st : RunState)
    (journal_paths : List String)
    (hsrc : H.src = none)
    (hpl : H.pluralize "journals" = "journals")
    (hnodir : H.dataDir ++ ["journals"] ∉ st.fs.dirs)
    (hparent : H.dataDir ∈ st.fs.dirs)
    (hnofile : ¬ fileAt st.fs ((H.dataDir ++ ["journals"]) ++ ["index.json"])) :
    fetch_data H st journal_paths =
      ({ fs := { dirs := st.fs.dirs ++ [H.dataDir ++ ["journals"]],
                 files := st.fs.files
                   ++ [((H.dataDir ++ ["journals"]) ++ ["index.json"], none)] },
         calls := st.calls, progress_length := 0 },
       .error "TypeError") := by
  have hb := build_index_file_no_source H { st with progress_length := 0 }
    H.dataDir "journals" none
    [("paths", String.intercalate "," journal_paths)]
    hsrc (by rw [hpl]; exact hnodir) hparent (by rw [hpl]; exact hnofile)
  rw [hpl] at hb
  simp [fetch_data, build_indexes, hb]

/-- A stand-in inflector for the resource names in `STRUCTURE` (`pluralize`
leaves the already-plural names unchanged). -/
def demoPluralize : String → String := fun s => s

/-- A stand-in inflector (`singularize` drops the trailing letter). -/
def demoSingularize : String → String := fun s => s.dropRight 1

/-- A concrete data directory `<root>/current`. -/
def demoDataDir : List String := ["data", "current"]

/-- A concrete run metadata document. -/
def demoMeta : Json :=
  .obj [("application", .str "CDL Journal Transfer"),
        ("version", .str "0.0.1"),
        ("initiated", .str "2022/03/01 at 12:00:00"),
        ("transaction_id", .str "N")]

/-- A concrete handler with no source server configured. -/
def demoNoSourceHandler : Handler :=
  { src := none, uuid5 := demoUuid5, ns := "N", pluralize := demoPluralize,
    singularize := demoSingularize, dataDir := demoDataDir }

/-- The mirror right after `initialize_data_directory`: just the data
directory and the run metadata file. -/
def demoInitState : RunState :=
  { fs := { dirs := [["data"], ["data", "current"]],
            files := [(["data", "current", "index.json"], some demoMeta)] },
    calls := [], progress_length := 0 }

theorem demoInitState_from_init :
    init_data_directory { dirs := [["data"], ["data", "current"]], files := [] }
      demoDataDir demoMeta = .ok demoInitState.fs := rfl

/-- Claim C4 counterexample: on a freshly initialized mirror with no source
transport, the fetch sequence raises `TypeError` and has created a journals
directory and an empty `journals/index.json` beyond the initialization
metadata, refuting the claimed silent no-op. -/
theorem no_source_fetch_counterexample :
    fetch_data demoNoSourceHandler demoInitState [] =
      ({ fs := { dirs := [["data"], ["data", "current"],
                          ["data", "current", "journals"]],
                 files := [(["data", "current", "index.json"], some demoMeta),
                           (["data", "current", "journals", "index.json"], none)] },
         calls := [], progress_length := 0 },
       .error "TypeError")
    ∧ ["data", "current", "journals"] ∉ demoInitState.fs.dirs := by
  exact ⟨rfl, by decide⟩

/-- Claim C4 (amended) witness: the amended theorem applied to the concrete
no-source handler and freshly initialized mirror. -/
theorem no_source_fetch_zero_calls_but_raises_witness :
    fetch_data demoNoSourceHandler demoInitState ["a"] =
      ({ fs := { dirs := demoInitState.fs.dirs ++ [demoDataDir ++ ["journals"]],
                 files := demoInitState.fs.files
                   ++ [((demoDataDir ++ ["journals"]) ++ ["index.json"], none)] },
         calls := demoInitState.calls, progress_length := 0 },
       .error "TypeError") :=
  no_source_fetch_zero_calls_but_raises demoNoSourceHandler demoInitState ["a"]
    rfl rfl (by decide) (by decide)
    (by
      intro hf
      obtain ⟨q, hq, he⟩ := hf
      simp [demoInitState] at hq
      rw [hq] at he
      simp [demoNoSourceHandler, demoDataDir] at he)

theorem find?_key_append_none {α : Type} (l1 l2 : List (List String × α))
    (p : List String) (h : ∀ q ∈ l1, ¬ q.1 = p) :
    ((l1 ++ l2).find? (fun q => q.1 = p)) = l2.find? (fun q => q.1 = p) := by
  induction l1 with
  | nil => rfl
  | cons q l ih =>
    have hq := h q (List.mem_cons_self q l)
    simp only [List.cons_append, List.find?, decide_eq_false hq]
    exact ih (fun r hr => h r (List.mem_cons_of_mem q hr))

theorem find?_key_self_append {α : Type} (l : List (List String × α))
    (p : List String) (c : α) (h : ∀ q ∈ l, ¬ q.1 = p) :
    ((l ++ [(p, c)]).find? (fun q => q.1 = p)) = some (p, c) := by
  rw [find?_key_append_none l _ p h]
  simp only [List.find?, decide_True, eq_self_iff_true]

theorem find?_key_map_update {α : Type} (l : List (List String × α))
    (p : List String) (c : α) (h : ∃ q ∈ l, q.1 = p) :
    ((l.map (fun q => if q.1 = p then (p, c) else q)).find? (fun q => q.1 = p))
      = some (p, c) := by
  induction l with
  | nil => obtain ⟨q, hq, _⟩ := h; cases hq
  | cons q0 rest ih =>
    by_cases hq0 : q0.1 = p
    · simp only [List.map_cons, if_pos hq0, List.find?, decide_True,
        eq_self_iff_true]
    · simp only [List.map_cons, if_neg hq0, List.find?, decide_eq_false hq0]
      apply ih
      obtain ⟨q, hq, he⟩ := h
      rcases List.mem_cons.mp hq with h1 | h1
      · exact absurd (h1 ▸ he) hq0
      · exact ⟨q, h1, he⟩

theorem fsLookup_fsWrite (fs : FS) (p : List String) (c : Json) (fs' : FS)
    (h : fsWrite fs p c = .ok fs') : fsLookup fs' p = some (some c) := by
  unfold fsWrite at h
  by_cases hpar : p.dropLast ∈ fs.dirs
  · rw [if_pos hpar] at h
    by_cases hf : fileAt fs p
    · rw [if_pos hf] at h
      cases h
      unfold fsLookup
      rw [find?_key_map_update fs.files p (some c) hf]
      rfl
    · rw [if_neg hf] at h
      cases h
      unfold fsLookup
      rw [find?_key_self_append fs.files p (some c)
        (fun q hq he => hf ⟨q, hq, he⟩)]
      rfl
  · rw [if_neg hpar] at h
    cases h

theorem build_index_file_success_lookup (H : Handler) (st : RunState)
    (base : List String) (rname : String) (url : Option String)
    (ps : List (String × String)) (st' : RunState) (file : List String)
    (data : Json)
    (h : build_index_file H st base rname url ps = (st', .ok (file, data))) :
    fsLookup st'.fs file = some (some data) := by
  simp only [build_index_file] at h
  cases hmk : fsMkdir st.fs (base ++ [H.pluralize rname]) with
  | error e => simp [hmk] at h
  | ok fs1 =>
    simp only [hmk] at h
    cases htc : fsTouch fs1 (base ++ [H.pluralize rname] ++ ["index.json"]) with
    | error e => simp only [htc] at h; simp at h
    | ok fs2 =>
      simp only [htc] at h
      cases hs : H.src with
      | none => simp [do_fetch, hs] at h
      | some get =>
        simp only [do_fetch, hs] at h
        cases hg : get (url.getD (H.pluralize rname)) ps with
        | error e => simp only [hg] at h; simp at h
        | ok resp =>
          simp only [hg] at h
          cases ha : assignUuids H.uuid5 H.ns resp with
          | error e => simp only [ha] at h; simp at h
          | ok resp' =>
            simp only [ha] at h
            cases hw : fsWrite fs2 (base ++ [H.pluralize rname] ++ ["index.json"])
                resp' with
            | error e => simp only [hw] at h; simp at h
            | ok fs3 =>
              simp only [hw] at h
              cases hl : pyLen resp' with
              | error e => simp only [hl] at h; simp at h
              | ok n =>
                simp only [hl, Prod.mk.injEq, Except.ok.injEq] at h
                obtain ⟨h1, h2, h3⟩ := h
                rw [← h1, ← h2, ← h3]
                exact fsLookup_fsWrite fs2 _ resp' fs3 hw

theorem build_index_file_transport_failure (H : Handler)
    (get : String → List (String × String) → Except String Json)
    (st : RunState) (base : List String) (rname : String) (url : Option String)
    (ps : List (String × String)) (e : String)
    (hsrc : H.src = some get)
    (hget : get (url.getD (H.pluralize rname)) ps = .error e)
    (hnodir : base ++ [H.pluralize rname] ∉ st.fs.dirs)
    (hparent : base ∈ st.fs.dirs)
    (hnofile : ¬ fileAt st.fs ((base ++ [H.pluralize rname]) ++ ["index.json"])) :
    build_index_file H st base rname url ps =
      ({ fs := { dirs := st.fs.dirs ++ [base ++ [H.pluralize rname]],
                 files := st.fs.files
                   ++ [((base ++ [H.pluralize rname]) ++ ["index.json"], none)] },
         calls := st.calls ++ [(url.getD (H.pluralize rname), ps)],
         progress_length := st.progress_length },
       .error e) := by
  simp only [fileAt] at hnofile
  simp [build_index_file, do_fetch, hsrc, hget, fsMkdir, fsTouch, fileAt,
        hnodir, hparent, hnofile]
  rw [if_neg hnofile]

/-- Claim C5 (amended): the index content write is atomic — a successful
index build leaves the complete listing in the resource's `index.json`, and a
transport failure during the fetch writes no content at all (the index file
stays empty); however, the resource directory and an empty `index.json` are
created by `touch` before the fetch, so a transport failure does leave an
empty index file behind. -/
theorem index_build_no_partial_content :
    (∀ (H : Handler) (st : RunState) (base : List String) (rname : String)
        (url : Option String) (ps : List (String × String)) (st' : RunState)
        (file : List String) (data : Json),
        build_index_file H st base rname url ps = (st', .ok (file, data)) →
        fsLookup st'.fs file = some (some data))
    ∧ (∀ (H : Handler)
          (get : String → List (String × String) → Except String Json)
          (st : RunState) (base : List String) (rname : String)
          (url : Option String) (ps : List (String × String)) (e : String)
          (st' : RunState) (r : Except String (List String × Json)),
        H.src = some get →
        get (url.getD (H.pluralize rname)) ps = .error e →
        base ++ [H.pluralize rname] ∉ st.fs.dirs →
        base ∈ st.fs.dirs →
        ¬ fileAt st.fs ((base ++ [H.pluralize rname]) ++ ["index.json"]) →
        build_index_file H st base rname url ps = (st', r) →
        r = .error e ∧
        fsLookup st'.fs ((base ++ [H.pluralize rname]) ++ ["index.json"])
          = some none) := by
  constructor
  · exact fun H st base rname url ps st' file data h =>
      build_index_file_success_lookup H st base rname url ps st' file data h
  · intro H get st base rname url ps e st' r hsrc hget hnodir hparent hnofile heq
    rw [build_index_file_transport_failure H get st base rname url ps e hsrc
        hget hnodir hparent hnofile] at heq
    have h1 : st' = { fs := { dirs := st.fs.dirs ++ [base ++ [H.pluralize rname]],
                              files := st.fs.files
                                ++ [((base ++ [H.pluralize rname])
                                      ++ ["index.json"], none)] },
                      calls := st.calls ++ [(url.getD (H.pluralize rname), ps)],
                      progress_length := st.progress_length } := by
      have := congrArg Prod.fst heq
      exact this.symm
    have h2 : r = .error e := by
      have := congrArg Prod.snd heq
      exact this.symm
    refine ⟨h2, ?_⟩
    rw [h1]
    unfold fsLookup
    rw [find?_key_self_append st.fs.files _ none
        (fun q hq he => hnofile ⟨q, hq, he⟩)]
    rfl

/-- A concrete transport returning the empty listing for every path. -/
def demoEmptyGet : String → List (String × String) → Except String Json :=
  fun _ _ => .ok (.arr [])

/-- A concrete handler whose transport always succeeds with `[]`. -/
def demoOkHandler : Handler :=
  { src := some demoEmptyGet, uuid5 := demoUuid5, ns := "N",
    pluralize := demoPluralize, singularize := demoSingularize,
    dataDir := demoDataDir }

/-- A concrete transport that fails every request. -/
def demoFailGet : String → List (String × String) → Except String Json :=
  fun _ _ => .error "ConnectionError"

/-- A concrete handler whose transport always fails. -/
def demoFailHandler : Handler :=
  { src := some demoFailGet, uuid5 := demoUuid5, ns := "N",
    pluralize := demoPluralize, singularize := demoSingularize,
    dataDir := demoDataDir }

/-- Claim C5 counterexample: a transport failure during an index build leaves
an empty `index.json` behind (created by `touch` before the fetch), refuting
the claim that a failing call performs no write and leaves no empty index
file. -/
theorem index_transport_failure_counterexample :
    build_index_file demoFailHandler demoInitState demoDataDir "journals"
        none [] =
      ({ fs := { dirs := [["data"], ["data", "current"],
                          ["data", "current", "journals"]],
                 files := [(["data", "current", "index.json"], some demoMeta),
                           (["data", "current", "journals", "index.json"], none)] },
         calls := [("journals", [])], progress_length := 0 },
       .error "ConnectionError")
    ∧ fsLookup (build_index_file demoFailHandler demoInitState demoDataDir
          "journals" none []).1.fs
        ["data", "current", "journals", "index.json"] = some none :=
  ⟨rfl, rfl⟩

/-- Claim C5 (amended) witness: a successful concrete build leaves the full
(empty) listing in the index file, and a concrete transport failure leaves
exactly an empty index file. -/
theorem index_build_no_partial_content_witness :
    fsLookup (build_index_file demoOkHandler demoInitState demoDataDir
          "journals" none []).1.fs
        ["data", "current", "journals", "index.json"] = some (some (.arr []))
    ∧ ((build_index_file demoFailHandler demoInitState demoDataDir "journals"
          none []).2 = .error "ConnectionError"
        ∧ fsLookup (build_index_file demoFailHandler demoInitState demoDataDir
              "journals" none []).1.fs
            ["data", "current", "journals", "index.json"] = some none) := by
  constructor
  · exact index_build_no_partial_content.1 demoOkHandler demoInitState
      demoDataDir "journals" none []
      (build_index_file demoOkHandler demoInitState demoDataDir "journals"
        none []).1
      ["data", "current", "journals", "index.json"] (.arr []) rfl
  · exact index_build_no_partial_content.2 demoFailHandler demoFailGet
      demoInitState demoDataDir "journals" none [] "ConnectionError"
      (build_index_file demoFailHandler demoInitState demoDataDir "journals"
        none []).1
      (build_index_file demoFailHandler demoInitState demoDataDir "journals"
        none []).2
      rfl rfl (by decide) (by decide)
      (by
        intro hf
        obtain ⟨q, hq, he⟩ := hf
        simp [demoInitState] at hq
        rw [hq] at he
        simp [demoFailHandler, demoDataDir, demoPluralize] at he)
      rfl

/-- Claim C7 (amended): an index entry without `source_record_key` is
tolerated by identifier extraction (`__source_pk` yields no derivable key),
but the downstream path-building steps do not tolerate it: both the journal
directory creation of the index phase and the generic subresource fetch look
up the entry's absent `uuid` with a plain item access and raise `KeyError`. -/
theorem missing_source_key_tolerated_only_by_source_pk :
    (∀ f : List (String × Json), dictGet f "source_record_key" = none →
        source_pk (.obj f) = .ok none)
    ∧ (∀ (H : Handler) (jif : List String) (st : RunState)
          (f : List (String × Json)) (t : Json),
        dictGet f "title" = some t → dictGet f "uuid" = none →
        build_indexes_journal H jif st (.obj f) = (st, .error "KeyError"))
    ∧ (∀ (H : Handler) (cjp : List String) (cjsi : Option String)
          (st : RunState) (name : String) (f : List (String × Json)),
        dictGet f "uuid" = none →
        fetch_subresource H cjp cjsi st name (.obj f) = (st, .error "KeyError")) := by
  refine ⟨?_, ?_, ?_⟩
  · intro f h
    simp [source_pk, h]
  · intro H jif st f t ht hu
    simp [build_indexes_journal, pyGetItem, ht, hu]
  · intro H cjp cjsi st name f hu
    simp [fetch_subresource, pyGetItem, hu]

/-- A concrete transport whose journal listing holds one entry that carries a
title but no `source_record_key` (hence it gets no `uuid`). -/
def demoKeylessGet : String → List (String × String) → Except String Json :=
  fun _ _ => .ok (.arr [.obj [("title", .str "J")]])

/-- A concrete handler whose journal listing entries carry no
`source_record_key`. -/
def demoKeylessHandler : Handler :=
  { src := some demoKeylessGet, uuid5 := demoUuid5, ns := "N",
    pluralize := demoPluralize, singularize := demoSingularize,
    dataDir := demoDataDir }

/-- Claim C7 counterexample: running the index phase over a journal entry
without `source_record_key` is fatal — the journal directory creation step
raises `KeyError` on the absent `uuid` instead of tolerating the entry. -/
theorem missing_source_key_crash_counterexample :
    (build_indexes demoKeylessHandler demoInitState []).2 = .error "KeyError" :=
  rfl

/-- Claim C7 (amended) witness: the three amended statements applied at
concrete keyless entries. -/
theorem missing_source_key_tolerated_only_by_source_pk_witness :
    source_pk (.obj [("title", Json.str "J")]) = .ok none
    ∧ build_indexes_journal demoKeylessHandler
        ["data", "current", "journals", "index.json"] demoInitState
        (.obj [("title", Json.str "J")]) = (demoInitState, .error "KeyError")
    ∧ fetch_subresource demoKeylessHandler ["data", "current", "journals", "x"]
        none demoInitState "issues" (.obj [("title", Json.str "J")])
        = (demoInitState, .error "KeyError") :=
  ⟨missing_source_key_tolerated_only_by_source_pk.1 [("title", Json.str "J")] rfl,
   missing_source_key_tolerated_only_by_source_pk.2.1 demoKeylessHandler
     ["data", "current", "journals", "index.json"] demoInitState
     [("title", Json.str "J")] (Json.str "J") rfl rfl,
   missing_source_key_tolerated_only_by_source_pk.2.2 demoKeylessHandler
     ["data", "current", "journals", "x"] none demoInitState "issues"
     [("title", Json.str "J")] rfl⟩

theorem append_singleton_ne_self (l : List String) (a : String) :
    l ++ [a] ≠ l := by
  intro h
  have := congrArg List.length h
  simp at this

theorem append_singleton_ne_two (l : List String) (a b c : String) :
    l ++ [a] ≠ (l ++ [b]) ++ [c] := by
  intro h
  have := congrArg List.length h
  simp at this

theorem append_singleton_inj (l : List String) (a b : String) :
    l ++ [a] = l ++ [b] ↔ a = b := by
  constructor
  · intro h
    have := List.append_cancel_left h
    simpa using this
  · intro h
    rw [h]

theorem fsMkdir_ok (fs : FS) (p : List String) (hnp : p ∉ fs.dirs)
    (hpar : p.dropLast ∈ fs.dirs) :
    fsMkdir fs p = .ok { dirs := fs.dirs ++ [p], files := fs.files } := by
  unfold fsMkdir
  rw [if_neg hnp, if_pos hpar]

theorem fsMkdirExistOk_ok (fs : FS) (p : List String)
    (hpar : p.dropLast ∈ fs.dirs) :
    ∃ fs0, fsMkdirExistOk fs p = .ok fs0 ∧ fs0.files = fs.files ∧
      p ∈ fs0.dirs ∧ (∀ q, q ∈ fs0.dirs ↔ (q ∈ fs.dirs ∨ q = p)) ∧
      (fs.dirs.Nodup → fs0.dirs.Nodup) := by
  unfold fsMkdirExistOk
  by_cases hp : p ∈ fs.dirs
  · rw [if_pos hp]
    refine ⟨fs, rfl, rfl, hp, fun q => ⟨Or.inl, ?_⟩, id⟩
    rintro (h | rfl)
    · exact h
    · exact hp
  · rw [if_neg hp, if_pos hpar]
    refine ⟨_, rfl, rfl, by simp, fun q => by simp, fun hnd => ?_⟩
    rw [← List.concat_eq_append]
    exact hnd.concat hp

theorem fsTouch_ok (fs : FS) (p : List String) (hpar : p.dropLast ∈ fs.dirs) :
    ∃ fs2, fsTouch fs p = .ok fs2 ∧ fs2.dirs = fs.dirs ∧
      (∀ q, fileAt fs2 q ↔ (fileAt fs q ∨ q = p)) := by
  unfold fsTouch
  by_cases hf : fileAt fs p
  · rw [if_pos hf]
    refine ⟨fs, rfl, rfl, fun q => ⟨Or.inl, ?_⟩⟩
    rintro (h | rfl)
    · exact h
    · exact hf
  · rw [if_neg hf, if_pos hpar]
    refine ⟨_, rfl, rfl, fun q => ?_⟩
    unfold fileAt
    constructor
    · rintro ⟨q', hq', he⟩
      rcases List.mem_append.mp hq' with hm | hm
      · exact Or.inl ⟨q', hm, he⟩
      · rw [List.mem_singleton.mp hm] at he
        exact Or.inr he.symm
    · rintro (⟨q', hq', he⟩ | rfl)
      · exact ⟨q', List.mem_append_left _ hq', he⟩
      · exact ⟨(q, none), List.mem_append_right _ (List.mem_singleton_self _), rfl⟩

theorem fsWrite_ok (fs : FS) (p : List String) (c : Json)
    (hpar : p.dropLast ∈ fs.dirs) :
    ∃ fs3, fsWrite fs p c = .ok fs3 ∧ fs3.dirs = fs.dirs ∧
      (∀ q, fileAt fs3 q ↔ (fileAt fs q ∨ q = p)) := by
  unfold fsWrite
  rw [if_pos hpar]
  by_cases hf : fileAt fs p
  · rw [if_pos hf]
    refine ⟨_, rfl, rfl, fun q => ?_⟩
    unfold fileAt
    constructor
    · rintro ⟨q', hq', he⟩
      rcases List.mem_map.mp hq' with ⟨q0, hq0, hmap⟩
      by_cases h0 : q0.1 = p
      · rw [if_pos h0] at hmap
        rw [← hmap] at he
        exact Or.inr he.symm
      · rw [if_neg h0] at hmap
        exact Or.inl ⟨q0, hq0, hmap ▸ he⟩
    · rintro (⟨q', hq', he⟩ | rfl)
      · by_cases h0 : q'.1 = p
        · obtain ⟨q0, hq0, he0⟩ := hf
          exact ⟨(p, some c),
            List.mem_map.mpr ⟨q0, hq0, by rw [if_pos he0]⟩, h0 ▸ he⟩
        · exact ⟨q', List.mem_map.mpr ⟨q', hq', by rw [if_neg h0]⟩, he⟩
      · obtain ⟨q0, hq0, he0⟩ := hf
        exact ⟨(q, some c), List.mem_map.mpr ⟨q0, hq0, by rw [if_pos he0]⟩, rfl⟩
  · rw [if_neg hf]
    refine ⟨_, rfl, rfl, fun q => ?_⟩
    unfold fileAt
    constructor
    · rintro ⟨q', hq', he⟩
      rcases List.mem_append.mp hq' with hm | hm
      · exact Or.inl ⟨q', hm, he⟩
      · rw [List.mem_singleton.mp hm] at he
        exact Or.inr he.symm
    · rintro (⟨q', hq', he⟩ | rfl)
      · exact ⟨q', List.mem_append_left _ hq', he⟩
      · exact ⟨(q, some c), List.mem_append_right _ (List.mem_singleton_self _),
          rfl⟩

theorem do_fetch_ok (H : Handler)
    (get : String → List (String × String) → Except String Json)
    (hsrc : H.src = some get)
    (hget : ∀ p ps, ∃ j j', get p ps = Except.ok j ∧
      assignUuids H.uuid5 H.ns j = Except.ok j')
    (st : RunState) (path : String) (params : List (String × String))
    (file : List String) (hpar : file.dropLast ∈ st.fs.dirs) :
    ∃ st' resp, do_fetch H st path params file = (st', .ok (some resp)) ∧
      st'.fs.dirs = st.fs.dirs ∧
      (∀ q, fileAt st'.fs q ↔ (fileAt st.fs q ∨ q = file)) ∧
      st'.calls = st.calls ++ [(path, params)] ∧
      st'.progress_length = st.progress_length := by
  obtain ⟨j, j', hj, hj'⟩ := hget path params
  obtain ⟨fs3, hw, hdirs, hfile⟩ := fsWrite_ok st.fs file j' hpar
  refine ⟨{ fs := fs3, calls := st.calls ++ [(path, params)],
            progress_length := st.progress_length }, j', ?_, hdirs, hfile,
          rfl, rfl⟩
  simp only [do_fetch, hsrc, hj, hj', hw]

/-- The `uuid` field of a role index entry, when it is a string (the form
`__fetch_roles` requires). -/
def roleUuid : Json → Option String
  | .obj f =>
    match dictGet f "uuid" with
    | some (.str u) => some u
    | _ => none
  | _ => none

/-- The state of the users registry area that `__fetch_roles` relies on: the
data directory exists, directories are not duplicated, and no plain file sits
at a user-directory path. -/
def usersInv (H : Handler) (st : RunState) : Prop :=
  H.dataDir ∈ st.fs.dirs ∧ st.fs.dirs.Nodup ∧
  ∀ u : String, ¬ fileAt st.fs ((H.dataDir ++ ["users"]) ++ [u])

theorem fetch_roles_step (H : Handler)
    (get : String → List (String × String) → Except String Json)
    (hsrc : H.src = some get)
    (hget : ∀ p ps, ∃ j j', get p ps = Except.ok j ∧
      assignUuids H.uuid5 H.ns j = Except.ok j')
    (st : RunState) (r : Json) (u : String)
    (hu : roleUuid r = some u) (hspk0 : ∃ spk, source_pk r = .ok spk)
    (hinv : usersInv H st) :
    ∃ st', fetch_roles H st r = (st', .ok ()) ∧ usersInv H st' ∧
      (∀ u' : String, ((H.dataDir ++ ["users"]) ++ [u'] ∈ st'.fs.dirs ↔
        ((H.dataDir ++ ["users"]) ++ [u'] ∈ st.fs.dirs ∨ u' = u))) := by
  obtain ⟨hdd, hnd, hnf⟩ := hinv
  obtain ⟨spk, hspk⟩ := hspk0
  cases r with
  | null => simp [roleUuid] at hu
  | bool b => simp [roleUuid] at hu
  | num n => simp [roleUuid] at hu
  | str s => simp [roleUuid] at hu
  | arr l => simp [roleUuid] at hu
  | obj f =>
    have hgu : dictGet f "uuid" = some (.str u) := by
      cases hg : dictGet f "uuid" with
      | none => simp [roleUuid, hg] at hu
      | some v =>
        cases v with
        | str u0 =>
          simp only [roleUuid, hg, Option.some.injEq] at hu
          rw [hu]
        | null => simp [roleUuid, hg] at hu
        | bool b => simp [roleUuid, hg] at hu
        | num n => simp [roleUuid, hg] at hu
        | arr l => simp [roleUuid, hg] at hu
        | obj g => simp [roleUuid, hg] at hu
    obtain ⟨fs0, hmk0, hfiles0, hup0, hdirs0, hnd0⟩ :=
      fsMkdirExistOk_ok st.fs (H.dataDir ++ ["users"])
        (by rw [List.dropLast_concat]; exact hdd)
    have hfA : ∀ u', ¬ fileAt fs0 ((H.dataDir ++ ["users"]) ++ [u']) := by
      intro u' hf
      apply hnf u'
      unfold fileAt at hf ⊢
      rw [hfiles0] at hf
      exact hf
    have hupne : ∀ u' : String,
        (H.dataDir ++ ["users"]) ++ [u'] ∈ fs0.dirs ↔
          (H.dataDir ++ ["users"]) ++ [u'] ∈ st.fs.dirs := by
      intro u'
      rw [hdirs0]
      constructor
      · rintro (h | h)
        · exact h
        · exact absurd h (append_singleton_ne_self _ u')
      · exact Or.inl
    simp only [fetch_roles, hmk0, pyGetItem, hgu]
    by_cases hud : (H.dataDir ++ ["users"]) ++ [u] ∈ fs0.dirs
    · rw [if_pos (Or.inl hud)]
      refine ⟨{ st with fs := fs0 }, rfl,
        ⟨(hdirs0 _).mpr (Or.inl hdd), hnd0 hnd, hfA⟩, ?_⟩
      intro u'
      show (H.dataDir ++ ["users"]) ++ [u'] ∈ fs0.dirs ↔ _
      rw [hupne u']
      constructor
      · exact Or.inl
      · rintro (h | he)
        · exact h
        · rw [he]
          exact (hupne u).mp hud
    · rw [if_neg (fun hc => hc.elim hud (hfA u))]
      simp only [fsMkdir_ok fs0 ((H.dataDir ++ ["users"]) ++ [u]) hud
          (by rw [List.dropLast_concat]; exact hup0)]
      obtain ⟨fs2, htc, hd2, hf2⟩ :=
        fsTouch_ok { dirs := fs0.dirs ++ [(H.dataDir ++ ["users"]) ++ [u]],
                     files := fs0.files }
          (((H.dataDir ++ ["users"]) ++ [u]) ++ ["user.json"])
          (by
            rw [List.dropLast_concat]
            exact List.mem_append_right _ (List.mem_singleton_self _))
      simp only [htc, hspk]
      obtain ⟨st3, resp, hdo, hdirs3, hfile3, hcalls3, hprog3⟩ :=
        do_fetch_ok H get hsrc hget
          { fs := fs2, calls := st.calls, progress_length := st.progress_length }
          ("users/" ++ pyStrOfOpt spk) []
          (((H.dataDir ++ ["users"]) ++ [u]) ++ ["user.json"])
          (by
            show (((H.dataDir ++ ["users"]) ++ [u]) ++ ["user.json"]).dropLast
              ∈ fs2.dirs
            rw [List.dropLast_concat, hd2]
            exact List.mem_append_right _ (List.mem_singleton_self _))
      simp only [hdo]
      have hdirs3' : st3.fs.dirs = fs0.dirs ++ [(H.dataDir ++ ["users"]) ++ [u]] := by
        rw [hdirs3]
        exact hd2
      have hfileAt3 : ∀ q, fileAt st3.fs q ↔
          (fileAt fs0 q ∨ q = ((H.dataDir ++ ["users"]) ++ [u]) ++ ["user.json"]) := by
        intro q
        rw [hfile3 q, hf2 q]
        constructor
        · rintro ((h | rfl) | rfl)
          · exact Or.inl h
          · exact Or.inr rfl
          · exact Or.inr rfl
        · rintro (h | rfl)
          · exact Or.inl (Or.inl h)
          · exact Or.inr rfl
      refine ⟨st3, rfl, ⟨?_, ?_, ?_⟩, ?_⟩
      · rw [hdirs3']
        exact List.mem_append_left _ ((hdirs0 _).mpr (Or.inl hdd))
      · rw [hdirs3', ← List.concat_eq_append]
        exact (hnd0 hnd).concat hud
      · intro u'' hf
        rcases (hfileAt3 _).mp hf with h | h
        · exact hfA u'' h
        · exact append_singleton_ne_two (H.dataDir ++ ["users"]) u'' u
            "user.json" h
      · intro u'
        rw [hdirs3']
        constructor
        · intro h
          rcases List.mem_append.mp h with h | h
          · exact Or.inl ((hupne u').mp h)
          · exact Or.inr ((append_singleton_inj _ u' u).mp
              (List.mem_singleton.mp h))
        · rintro (h | rfl)
          · exact List.mem_append_left _ ((hupne u').mpr h)
          · exact List.mem_append_right _ (List.mem_singleton_self _)

theorem fetch_roles_fold (H : Handler)
    (get : String → List (String × String) → Except String Json)
    (hsrc : H.src = some get)
    (hget : ∀ p ps, ∃ j j', get p ps = Except.ok j ∧
      assignUuids H.uuid5 H.ns j = Except.ok j') :
    (roles : List Json) → (st : RunState) → usersInv H st →
    (∀ r ∈ roles, (∃ u, roleUuid r = some u) ∧ ∃ spk, source_pk r = .ok spk) →
    ∃ st', runFold (fun s r => fetch_roles H s r) st roles = (st', .ok ()) ∧
      usersInv H st' ∧
      (∀ u' : String, ((H.dataDir ++ ["users"]) ++ [u'] ∈ st'.fs.dirs ↔
        ((H.dataDir ++ ["users"]) ++ [u'] ∈ st.fs.dirs ∨
          u' ∈ roles.filterMap roleUuid)))
  | [], st, hinv, _ => ⟨st, rfl, hinv, fun u' => by simp⟩
  | r :: roles, st, hinv, hwf => by
    obtain ⟨⟨u, hu⟩, hspk⟩ := hwf r (List.mem_cons_self r roles)
    obtain ⟨st1, hstep, hinv1, hiff1⟩ :=
      fetch_roles_step H get hsrc hget st r u hu hspk hinv
    obtain ⟨st', hfold, hinv', hiff'⟩ :=
      fetch_roles_fold H get hsrc hget roles st1 hinv1
        (fun r' hr' => hwf r' (List.mem_cons_of_mem r hr'))
    refine ⟨st', ?_, hinv', ?_⟩
    · simp only [runFold, hstep]
      exact hfold
    · intro u'
      rw [hiff' u', hiff1 u']
      simp only [List.filterMap_cons, hu, List.mem_cons]
      tauto

theorem roleUuid_obj (r : Json) (u : String) (hu : roleUuid r = some u) :
    ∃ f, r = .obj f ∧ dictGet f "uuid" = some (.str u) := by
  cases r with
  | obj f =>
    refine ⟨f, rfl, ?_⟩
    cases hg : dictGet f "uuid" with
    | none => simp [roleUuid, hg] at hu
    | some v =>
      cases v with
      | str u0 =>
        simp only [roleUuid, hg, Option.some.injEq] at hu
        rw [hu]
      | null => simp [roleUuid, hg] at hu
      | bool b => simp [roleUuid, hg] at hu
      | num n => simp [roleUuid, hg] at hu
      | arr l => simp [roleUuid, hg] at hu
      | obj g => simp [roleUuid, hg] at hu
  | null => simp [roleUuid] at hu
  | bool b => simp [roleUuid] at hu
  | num n => simp [roleUuid] at hu
  | str s => simp [roleUuid] at hu
  | arr l => simp [roleUuid] at hu

/-- Claim C3: over one run's roles (well-formed entries, working transport),
the users registry keeps at most one directory per user identifier — the
final directory list has no duplicates and holds exactly the initially
present user directories plus one per referenced identifier — and a role
whose user directory already exists is silently skipped by the
directory-existence check: no error, no state change, no fetch. -/
theorem user_fetched_at_most_once :
    (∀ (H : Handler)
        (get : String → List (String × String) → Except String Json)
        (st : RunState) (roles : List Json),
      H.src = some get →
      (∀ p ps, ∃ j j', get p ps = Except.ok j ∧
        assignUuids H.uuid5 H.ns j = Except.ok j') →
      usersInv H st →
      (∀ r ∈ roles, (∃ u, roleUuid r = some u) ∧
        ∃ spk, source_pk r = .ok spk) →
      ∃ st', runFold (fun s r => fetch_roles H s r) st roles = (st', .ok ()) ∧
        st'.fs.dirs.Nodup ∧
        (∀ u' : String, ((H.dataDir ++ ["users"]) ++ [u'] ∈ st'.fs.dirs ↔
          ((H.dataDir ++ ["users"]) ++ [u'] ∈ st.fs.dirs ∨
            u' ∈ roles.filterMap roleUuid))))
    ∧ (∀ (H : Handler) (st : RunState) (r : Json) (u : String),
        roleUuid r = some u →
        H.dataDir ++ ["users"] ∈ st.fs.dirs →
        (H.dataDir ++ ["users"]) ++ [u] ∈ st.fs.dirs →
        fetch_roles H st r = (st, .ok ())) := by
  constructor
  · intro H get st roles hsrc hget hinv hwf
    obtain ⟨st', hfold, hinv', hiff'⟩ :=
      fetch_roles_fold H get hsrc hget roles st hinv hwf
    exact ⟨st', hfold, hinv'.2.1, hiff'⟩
  · intro H st r u hu hup hud
    obtain ⟨f, rfl, hgu⟩ := roleUuid_obj r u hu
    have hmk : fsMkdirExistOk st.fs (H.dataDir ++ ["users"]) = .ok st.fs := by
      unfold fsMkdirExistOk
      rw [if_pos hup]
    simp only [fetch_roles, hmk, pyGetItem, hgu]
    rw [if_pos (Or.inl hud)]

theorem source_pk_str (f : List (String × Json)) (s : String)
    (hg : dictGet f "source_record_key" = some (.str s)) (hs : s ≠ "") :
    source_pk (.obj f) = .ok (some ((s.splitOn ":").getLastD "")) := by
  simp [source_pk, hg, pyTruthy, hs]

/-- A concrete role entry referencing remote user `user:1`. -/
def demoRole : Json :=
  .obj [("source_record_key", .str "user:1"), ("uuid", .str "N:user:1")]

/-- A concrete state in which the users registry already holds the directory
for `demoRole`'s user. -/
def demoUsersState : RunState :=
  { fs := { dirs := [["data"], ["data", "current"], ["data", "current", "users"],
                     ["data", "current", "users", "N:user:1"]],
            files := [(["data", "current", "index.json"], some demoMeta)] },
    calls := [], progress_length := 0 }

/-- Claim C3 witness: two role entries carrying the same user reference
produce exactly one user directory, and a role whose user directory already
exists is skipped without error or state change. -/
theorem user_fetched_at_most_once_witness :
    (∃ st', runFold (fun s r => fetch_roles demoOkHandler s r) demoInitState
        [demoRole, demoRole] = (st', .ok ()) ∧
      st'.fs.dirs.Nodup ∧
      (∀ u' : String,
        ((demoOkHandler.dataDir ++ ["users"]) ++ [u'] ∈ st'.fs.dirs ↔
          ((demoOkHandler.dataDir ++ ["users"]) ++ [u'] ∈ demoInitState.fs.dirs ∨
            u' ∈ [demoRole, demoRole].filterMap roleUuid))))
    ∧ fetch_roles demoOkHandler demoUsersState demoRole
        = (demoUsersState, .ok ()) := by
  constructor
  · exact user_fetched_at_most_once.1 demoOkHandler demoEmptyGet demoInitState
      [demoRole, demoRole] rfl
      (fun p ps => ⟨.arr [], .arr [], rfl, rfl⟩)
      ⟨by decide, by decide, by
        intro u hf
        obtain ⟨q, hq, he⟩ := hf
        simp [demoInitState] at hq
        rw [hq] at he
        simp [demoOkHandler, demoDataDir] at he⟩
      (by
        intro r hr
        simp only [List.mem_cons, List.not_mem_nil, or_false] at hr
        rcases hr with rfl | rfl
        · exact ⟨⟨"N:user:1", rfl⟩,
            ⟨_, source_pk_str _ "user:1" rfl (by decide)⟩⟩
        · exact ⟨⟨"N:user:1", rfl⟩,
            ⟨_, source_pk_str _ "user:1" rfl (by decide)⟩⟩)
  · exact user_fetched_at_most_once.2 demoOkHandler demoUsersState demoRole
      "N:user:1" rfl (by decide) (by decide)
